import Mathlib

/-!
# Smart To-Do — verification of the task write-path

Shallow embedding of the task-management service of this repository
(`src/lib/tasks.ts`, `src/lib/validations.ts`, `src/lib/calendar.ts`,
`src/lib/email.ts`) together with proofs about the claims on the task
status state machine, the calendar/email integration fan-out and user
isolation.

Modelling conventions:
* Dates (`Date` objects / timestamps) are natural numbers; `null`able
  columns are `Option`s.
* The Prisma task table is a `List Task`; `findUnique` is `dbGet`
  (first record with the given id), `update` rewrites the records with
  that id, `delete` removes them.
* The external services (Gmail via `email.ts`, Google Calendar via
  `calendar.ts`) are driven by environment oracles (`EmailEnv`,
  `GoogleEnv`) describing configuration and the outcome of the
  underlying API calls; `calendar.ts`/`email.ts` catch their own API
  errors, which the embedding of those modules reflects (they never
  throw into `tasks.ts`).
* Every externally visible action of an operation is recorded in an
  `Effect` trace: database writes, email-notification calls and
  calendar calls.
* JavaScript truthiness on strings (`if (eventId)`) is modelled by
  `strTruthy` (present and non-empty).
-/

namespace SmartTodo

/-- `taskStatusValues` of `validations.ts`: the `z.enum` over the three
status strings. -/
inductive TaskStatus where
  | PENDING
  | IN_PROGRESS
  | COMPLETED
deriving DecidableEq, Repr

/-- `taskPriorityValues` of `validations.ts`. -/
inductive TaskPriority where
  | LOW
  | MEDIUM
  | HIGH
deriving DecidableEq, Repr

/-- A row of the Prisma `Task` table (see `src/types/task.ts` and the
Prisma model).  `createdAt`/`updatedAt` bookkeeping columns are not
modelled: no claim and no business logic reads them. -/
structure Task where
  id : String
  userId : String
  title : String
  description : Option String
  status : TaskStatus
  previousStatus : Option TaskStatus
  priority : TaskPriority
  category : Option String
  dueDate : Option Nat
  completedAt : Option Nat
  emailNotification : Bool
  calendarSync : Bool
  calendarEventId : Option String
deriving DecidableEq, Repr

/-- JavaScript truthiness of a `string | null | undefined` value:
present and non-empty. -/
def strTruthy : Option String → Bool
  | some s => s ≠ ""
  | none => false

/-- Payload accepted by `taskCreateSchema` / fed to `normalizePayload`
(`Partial<TaskPayload>`): every field may be absent.  For fields the
schema transforms to `string | null` (description, category, dueDate)
the absent and the null case coincide in what `normalizePayload` does
with them (`?? null`), so a single `Option` layer is used. -/
structure TaskPayload where
  title : Option String := none
  description : Option String := none
  status : Option TaskStatus := none
  priority : Option TaskPriority := none
  category : Option String := none
  dueDate : Option Nat := none
  emailNotification : Option Bool := none
  calendarSync : Option Bool := none
deriving DecidableEq, Repr

/-- Payload accepted by `taskUpdateSchema` (`baseTaskSchema.partial()`
plus the task id).  The outer `Option` is JavaScript `undefined`
(field absent from the request); for nullable fields the inner
`Option` is `null` (field explicitly cleared). -/
structure TaskUpdatePayload where
  id : String
  title : Option String := none
  description : Option (Option String) := none
  status : Option TaskStatus := none
  priority : Option TaskPriority := none
  category : Option (Option String) := none
  dueDate : Option (Option Nat) := none
  emailNotification : Option Bool := none
  calendarSync : Option Bool := none
deriving DecidableEq, Repr

/-- Result of `normalizePayload` (`tasks.ts` lines 41-57): all fields
present, defaults applied. -/
structure NormalizedPayload where
  title : String
  description : Option String
  status : TaskStatus
  priority : TaskPriority
  category : Option String
  dueDate : Option Nat
  emailNotification : Bool
  calendarSync : Bool
deriving DecidableEq, Repr

/-- `normalizePayload` (`tasks.ts` lines 41-57): requires a truthy
title, fills in the documented defaults, throws otherwise. -/
def normalizePayload (p : TaskPayload) : Except String NormalizedPayload :=
  if strTruthy p.title then
    .ok {
      title := p.title.getD ""
      description := p.description
      status := p.status.getD .PENDING
      priority := p.priority.getD .MEDIUM
      category := p.category
      dueDate := p.dueDate
      emailNotification := p.emailNotification.getD true
      calendarSync := p.calendarSync.getD true }
  else
    .error "Task title is required"

/-- Result of `normalizePartialPayload` (`tasks.ts` lines 63-96): only
the fields explicitly provided are present. -/
structure PartialPayloadNorm where
  title : Option String := none
  description : Option (Option String) := none
  status : Option TaskStatus := none
  priority : Option TaskPriority := none
  category : Option (Option String) := none
  dueDate : Option (Option Nat) := none
  emailNotification : Option Bool := none
  calendarSync : Option Bool := none
deriving DecidableEq, Repr

/-- The field-copying part of `normalizePartialPayload`: each provided
field is carried over (`?? null` on nullable fields is the identity
after schema validation), absent fields stay absent. -/
def partialNorm (p : TaskUpdatePayload) : PartialPayloadNorm :=
  { title := p.title
    description := p.description
    status := p.status
    priority := p.priority
    category := p.category
    dueDate := p.dueDate
    emailNotification := p.emailNotification
    calendarSync := p.calendarSync }

/-- `normalizePartialPayload` (`tasks.ts` lines 63-96): throws when the
title field is provided but falsy, otherwise copies exactly the
provided fields. -/
def normalizePartialPayload (p : TaskUpdatePayload) : Except String PartialPayloadNorm :=
  if p.title = some "" then
    .error "Task title must be a non-empty string"
  else
    .ok (partialNorm p)

/-- `computeCompletedAt` (`tasks.ts` lines 98-111).  The result encodes
the JavaScript return value: `none` is `undefined` (leave the column
alone), `some none` is `null` (clear it), `some (some now)` is a fresh
timestamp. -/
def computeCompletedAt (previousStatus : TaskStatus) (nextStatus : Option TaskStatus)
    (now : Nat) : Option (Option Nat) :=
  if nextStatus = some .COMPLETED then
    some (some now)
  else if previousStatus = .COMPLETED ∧ nextStatus ≠ some .COMPLETED then
    some none
  else
    none

/-- Applying a Prisma partial-update `data` object built from
`normalizePartialPayload` to an existing row: provided fields replace,
absent fields keep their stored value. -/
def applyPartial (t : Task) (np : PartialPayloadNorm) : Task :=
  { t with
    title := np.title.getD t.title
    description := np.description.getD t.description
    status := np.status.getD t.status
    priority := np.priority.getD t.priority
    category := np.category.getD t.category
    dueDate := np.dueDate.getD t.dueDate
    emailNotification := np.emailNotification.getD t.emailNotification
    calendarSync := np.calendarSync.getD t.calendarSync }

/-! ## External-service environments (`email.ts`, `calendar.ts`) -/

/-- State of the Gmail-backed notification service (`email.ts`):
whether it is configured (`gmailConfigured && EMAIL_FROM`) and whether
the underlying `sendGmail` call succeeds. -/
structure EmailEnv where
  configured : Bool
  sendResult : Except Unit Unit
deriving Repr

/-- `sendEmail` of `email.ts`: skips delivery when unconfigured and
catches `sendGmail` errors, so it never throws; the returned flag is
whether the message was actually handed to Gmail. -/
def sendEmailDelivered (e : EmailEnv) : Bool :=
  e.configured && e.sendResult.isOk

/-- State of the Google Calendar layer (`calendar.ts`): whether the
calendar id and OAuth credentials are configured, and the outcome of
the underlying `events.insert` / `events.patch` / `events.delete`
calls (`.error` = the API call threw; for insert/patch a successful
response carries `response.data.id`, possibly absent). -/
structure GoogleEnv where
  configured : Bool
  insertResult : Except Unit (Option String)
  patchResult : Except Unit (Option String)
  deleteResult : Except Unit Unit
deriving Repr

/-- `createCalendarEvent` (`calendar.ts` lines 64-84): `null` when
unconfigured or when the insert throws, otherwise `response.data.id ??
null`.  Never throws. -/
def createCalendarEvent (g : GoogleEnv) : Option String :=
  if g.configured then
    match g.insertResult with
    | .ok i => i
    | .error _ => none
  else none

/-- `updateCalendarEvent` (`calendar.ts` lines 86-106): `null` when
unconfigured, the event id is falsy, or the patch throws; otherwise
`response.data.id ?? eventId`.  Never throws. -/
def updateCalendarEvent (g : GoogleEnv) (eventId : String) : Option String :=
  if g.configured ∧ eventId ≠ "" then
    match g.patchResult with
    | .ok i => some (i.getD eventId)
    | .error _ => none
  else none

/-- `deleteCalendarEvent` (`calendar.ts` lines 108-122) swallows every
error; this flag records whether an API deletion was actually issued
and succeeded (configured, truthy event id, delete call ok). -/
def deleteCalendarEventRuns (g : GoogleEnv) (eventId : Option String) : Bool :=
  g.configured && strTruthy eventId && g.deleteResult.isOk

/-- Environment for one service call: the clock, the id Prisma mints
for a created row, and the two integration backends. -/
structure Env where
  now : Nat
  newTaskId : String
  google : GoogleEnv
  email : EmailEnv
deriving Repr

/-! ## Effects and the database -/

inductive EmailKind where
  | created
  | updated
  | deleted
deriving DecidableEq, Repr

/-- Externally visible actions of a service call, in order. -/
inductive Effect where
  /-- A `sendTask…Email` call: kind, recipient, and whether the mail
  was actually delivered (the call itself never throws). -/
  | email (kind : EmailKind) (toEmail : String) (delivered : Bool)
  /-- A `createCalendarEvent` call for the given task. -/
  | calCreate (taskId : String)
  /-- An `updateCalendarEvent` call for the given event and task. -/
  | calPatch (eventId : String) (taskId : String)
  /-- A `deleteCalendarEvent` call and whether an API deletion was
  issued and succeeded. -/
  | calDelete (eventId : Option String) (performed : Bool)
  /-- `prisma.task.create` of the given row. -/
  | dbCreate (t : Task)
  /-- `prisma.task.update` of the row with the given id. -/
  | dbUpdate (id : String) (t : Task)
  /-- `prisma.task.delete` of the row with the given id. -/
  | dbDelete (id : String)
deriving DecidableEq, Repr

/-- `prisma.task.findUnique({ where: { id } })`. -/
def dbGet (db : List Task) (id : String) : Option Task :=
  db.find? (fun t => t.id = id)

/-- `prisma.task.update({ where: { id }, data })` with the full
replacement row already computed. -/
def dbWrite (db : List Task) (id : String) (t : Task) : List Task :=
  db.map (fun r => if r.id = id then t else r)

/-- `prisma.task.delete({ where: { id } })`. -/
def dbDelete (db : List Task) (id : String) : List Task :=
  db.filter (fun r => ¬ r.id = id)

/-- Result of one service call: the returned value (or the thrown
error message), the table afterwards, and the effect trace. -/
structure OpResult where
  result : Except String Task
  db : List Task
  effects : List Effect
deriving Repr

/-! ## The task service (`tasks.ts`) -/

/-- `syncCalendarAfterWrite` (`tasks.ts` lines 167-210): deletes the
event when sync is off or the due date is gone, otherwise patches the
stored event (JS truthiness on the id) or inserts a fresh one.  All
error paths are caught inside, so the function never throws; the value
is the event id returned by the calendar layer (or `null`). -/
def syncCalendarAfterWrite (env : Env) (task : Task) : Option String × List Effect :=
  if ¬ task.calendarSync ∨ task.dueDate = none then
    (none, [.calDelete task.calendarEventId
              (deleteCalendarEventRuns env.google task.calendarEventId)])
  else
    match task.calendarEventId with
    | some e =>
        if e = "" then
          (createCalendarEvent env.google, [.calCreate task.id])
        else
          (updateCalendarEvent env.google e, [.calPatch e task.id])
    | none => (createCalendarEvent env.google, [.calCreate task.id])

/-- The calendar block of `updateTask` (`tasks.ts` lines 400-430),
run on the freshly updated row: with a due date it defers to
`syncCalendarAfterWrite` and persists a changed truthy event id; with
no due date it calls `deleteCalendarEvent` (which never throws) and
then nulls a stored event id.  Returns the row `updateTask` will hand
on, the table, and the calendar effects. -/
def updateCalendarPhase (env : Env) (db : List Task) (updated : Task) :
    Task × List Task × List Effect :=
  if updated.dueDate.isSome then
    match syncCalendarAfterWrite env updated with
    | (some e, syncEffs) =>
        if e ≠ "" ∧ updated.calendarEventId ≠ some e then
          let t2 := { updated with calendarEventId := some e }
          (t2, dbWrite db updated.id t2, syncEffs ++ [.dbUpdate updated.id t2])
        else
          (updated, db, syncEffs)
    | (none, syncEffs) => (updated, db, syncEffs)
  else
    let delEff : List Effect :=
      [.calDelete updated.calendarEventId
         (deleteCalendarEventRuns env.google updated.calendarEventId)]
    if strTruthy updated.calendarEventId then
      let t2 := { updated with calendarEventId := none }
      (t2, dbWrite db updated.id t2, delEff ++ [.dbUpdate updated.id t2])
    else
      (updated, db, delEff)

/-- The row `prisma.task.create` stores in `createTask` (`tasks.ts`
lines 265-273): the normalized payload plus the owner, a fresh
completion stamp when created already `COMPLETED`, and null
`previousStatus` / `calendarEventId`. -/
def createRecord (now : Nat) (newId : String) (data : NormalizedPayload)
    (userId : String) : Task :=
  { id := newId
    userId := userId
    title := data.title
    description := data.description
    status := data.status
    previousStatus := none
    priority := data.priority
    category := data.category
    dueDate := data.dueDate
    completedAt := if data.status = .COMPLETED then some now else none
    emailNotification := data.emailNotification
    calendarSync := data.calendarSync
    calendarEventId := none }

/-- `createTask` (`tasks.ts` lines 260-344). -/
def createTask (env : Env) (db : List Task) (payload : TaskPayload)
    (userId userEmail : String) : OpResult :=
  match normalizePayload payload with
  | .error e => ⟨.error e, db, []⟩
  | .ok data =>
    let task := createRecord env.now env.newTaskId data userId
    let db1 := db ++ [task]
    if task.dueDate.isSome then
      let mailEff : List Effect :=
        if task.emailNotification then
          [.email .created userEmail (sendEmailDelivered env.email)]
        else []
      if task.calendarSync then
        let calEff : List Effect := [.calCreate task.id]
        match createCalendarEvent env.google with
        | some e =>
            if e ≠ "" then
              let t2 := { task with calendarEventId := some e }
              ⟨.ok t2, dbWrite db1 task.id t2,
                .dbCreate task :: (mailEff ++ calEff ++ [.dbUpdate task.id t2])⟩
            else
              ⟨.ok task, db1, .dbCreate task :: (mailEff ++ calEff)⟩
        | none => ⟨.ok task, db1, .dbCreate task :: (mailEff ++ calEff)⟩
      else
        ⟨.ok task, db1, .dbCreate task :: mailEff⟩
    else if task.status = .COMPLETED ∧ task.emailNotification then
      ⟨.ok task, db1,
        [.dbCreate task, .email .created userEmail (sendEmailDelivered env.email)]⟩
    else
      ⟨.ok task, db1, [.dbCreate task]⟩

/-- The `data` object of the `prisma.task.update` call in `updateTask`
(`tasks.ts` lines 376-398): the normalized partial payload, the
previous-status bookkeeping, and `computeCompletedAt` with `undefined`
keeping the stored stamp. -/
def applyUpdateData (now : Nat) (existing : Task) (np : PartialPayloadNorm)
    (pstatus : Option TaskStatus) : Task :=
  let completedAt := computeCompletedAt existing.status pstatus now
  let ps1 :=
    if pstatus = some .COMPLETED ∧ existing.status ≠ .COMPLETED then
      some existing.status
    else existing.previousStatus
  let previousStatus :=
    if existing.status = .COMPLETED ∧ pstatus ≠ some .COMPLETED then
      none
    else ps1
  { applyPartial existing np with
    previousStatus := previousStatus
    completedAt := completedAt.getD existing.completedAt }

/-- `updateTask` (`tasks.ts` lines 361-459). -/
def updateTask (env : Env) (db : List Task) (payload : TaskUpdatePayload)
    (userId userEmail : String) : OpResult :=
  match dbGet db payload.id with
  | none => ⟨.error "Task not found", db, []⟩
  | some existing =>
    if existing.userId ≠ userId then
      ⟨.error "Unauthorized", db, []⟩
    else
      match normalizePartialPayload payload with
      | .error e => ⟨.error e, db, []⟩
      | .ok np =>
        let updated := applyUpdateData env.now existing np payload.status
        let db1 := dbWrite db payload.id updated
        let phase := updateCalendarPhase env db1 updated
        let mailEff : List Effect :=
          if phase.1.emailNotification then
            [.email .updated userEmail (sendEmailDelivered env.email)]
          else []
        ⟨.ok phase.1, phase.2.1, .dbUpdate payload.id updated :: (phase.2.2 ++ mailEff)⟩

/-- The id-validation test of `deleteTask`
(`!id || id.trim().length === 0`): the string is empty after trimming
whitespace — equivalently, all of its characters are whitespace. -/
def trimmedEmpty (s : String) : Bool :=
  (s.toList.dropWhile Char.isWhitespace).isEmpty

/-- `deleteTask` (`tasks.ts` lines 475-534). -/
def deleteTask (env : Env) (db : List Task) (id : String)
    (userId userEmail : String) : OpResult :=
  if trimmedEmpty id then
    ⟨.error "Invalid task ID", db, []⟩
  else
    match dbGet db id with
    | none => ⟨.error "Task not found", db, []⟩
    | some task =>
      if task.userId ≠ userId then
        ⟨.error "Unauthorized", db, []⟩
      else
        let mailEff : List Effect :=
          if task.emailNotification then
            [.email .deleted userEmail (sendEmailDelivered env.email)]
          else []
        let calEff : List Effect :=
          if strTruthy task.calendarEventId then
            [.calDelete task.calendarEventId
               (deleteCalendarEventRuns env.google task.calendarEventId)]
          else []
        ⟨.ok task, dbDelete db id, mailEff ++ calEff ++ [.dbDelete id]⟩

/-! ## Listing (`listTasks`, `buildWhereClause`) -/

/-- Query accepted by `taskQuerySchema`: the schema turns empty
`category`/`search` strings into `undefined`, so presence means
non-empty.  `dueFrom`/`dueTo` are provided strings whose `new Date`
parse either yields a timestamp or `NaN` (`some none`). -/
structure TaskQuery where
  status : Option TaskStatus := none
  priority : Option TaskPriority := none
  category : Option String := none
  search : Option String := none
  dueFrom : Option (Option Nat) := none
  dueTo : Option (Option Nat) := none
  completed : Option Bool := none
deriving Repr

/-- Case-insensitive substring test over character lists, the
semantics of Prisma `contains` with `mode: "insensitive"`. -/
def charsInfix (p : List Char) : List Char → Bool
  | [] => p.isEmpty
  | c :: rest => p.isPrefixOf (c :: rest) || charsInfix p rest

/-- `{ contains: pat, mode: "insensitive" }` on a string column. -/
def containsCI (hay pat : String) : Bool :=
  charsInfix pat.toLower.toList hay.toLower.toList

/-- The filter `buildWhereClause` (`tasks.ts` lines 113-158) builds, as
a predicate on rows: always the owner, then each provided criterion.
A `gte`/`lte` due-date bound whose string failed to parse is dropped;
range bounds exclude rows with a null due date, as Prisma comparison
filters do. -/
def matchesWhere (q : TaskQuery) (userId : String) (t : Task) : Bool :=
  t.userId == userId
  && (match q.status with
      | some s => t.status = s
      | none => true)
  && (match q.priority with
      | some p => t.priority = p
      | none => true)
  && (match q.category with
      | some c => t.category = some c
      | none => true)
  && (match q.search with
      | some s =>
          containsCI t.title s
          || (match t.description with
              | some d => containsCI d s
              | none => false)
      | none => true)
  && (match q.dueFrom with
      | some (some lo) =>
          match t.dueDate with
          | some d => lo ≤ d
          | none => false
      | _ => true)
  && (match q.dueTo with
      | some (some hi) =>
          match t.dueDate with
          | some d => d ≤ hi
          | none => false
      | _ => true)
  && (match q.completed with
      | some true => t.completedAt.isSome
      | some false => t.completedAt.isNone
      | none => true)

/-- `listTasks` (`tasks.ts` lines 222-244) on an already-parsed query:
`findMany` with the where clause.  The `orderBy` of the source only
permutes the result and no claim concerns ordering, so the rows are
returned in table order. -/
def listTasks (db : List Task) (q : TaskQuery) (userId : String) : List Task :=
  db.filter (matchesWhere q userId)

/-! ## Views of the effect trace -/

/-- The email-notification calls in a trace: kind and recipient. -/
def emailCalls (effs : List Effect) : List (EmailKind × String) :=
  effs.filterMap fun e =>
    match e with
    | .email k toEmail _ => some (k, toEmail)
    | _ => none

/-- The calendar insert/patch calls in a trace. -/
def calWrites (effs : List Effect) : List Effect :=
  effs.filter fun e =>
    match e with
    | .calCreate _ => true
    | .calPatch _ _ => true
    | _ => false

/-- The targets of the calendar delete calls in a trace. -/
def calDeleteTargets (effs : List Effect) : List (Option String) :=
  effs.filterMap fun e =>
    match e with
    | .calDelete target _ => some target
    | _ => none

/-- Database writes in a trace. -/
def isDbWrite : Effect → Bool
  | .dbCreate _ => true
  | .dbUpdate _ _ => true
  | .dbDelete _ => true
  | _ => false

/-- The core database write of a service call: the first db effect in
its trace. -/
def coreWrite (r : OpResult) : Option Effect :=
  r.effects.find? isDbWrite

/-- A task with its calendar bookkeeping erased, for comparing rows up
to the `calendarEventId` column. -/
def sansCal (t : Task) : Task :=
  { t with calendarEventId := none }

/-! ## Concrete fixtures used by the witnesses -/

/-- A pending task of user `u1` with a due date and a stored calendar
event. -/
def sampleTask : Task :=
  { id := "t1", userId := "u1", title := "Write report", description := none
    status := .PENDING, previousStatus := none, priority := .MEDIUM
    category := none, dueDate := some 100, completedAt := none
    emailNotification := true, calendarSync := true, calendarEventId := some "ev1" }

/-- A completed task of user `u1`. -/
def doneTask : Task :=
  { id := "t2", userId := "u1", title := "Ship build", description := none
    status := .COMPLETED, previousStatus := some .IN_PROGRESS, priority := .HIGH
    category := none, dueDate := none, completedAt := some 7
    emailNotification := true, calendarSync := true, calendarEventId := none }

/-- Fully configured, fully succeeding integration backends. -/
def sampleEnv : Env :=
  { now := 42, newTaskId := "t9"
    google := { configured := true, insertResult := .ok (some "evNew")
                patchResult := .ok none, deleteResult := .ok () }
    email := { configured := true, sendResult := .ok () } }

/-- An environment whose every integration API call throws. -/
def failEnv : Env :=
  { now := 42, newTaskId := "t9"
    google := { configured := true, insertResult := .error ()
                patchResult := .error (), deleteResult := .error () }
    email := { configured := true, sendResult := .error () } }

/-! ## Helper lemmas -/

theorem dbGet_mem_id {db : List Task} {i : String} {ex : Task}
    (h : dbGet db i = some ex) : ex.id = i := by
  rw [dbGet] at h
  have h' := List.find?_some h
  simpa using h'

theorem dbGet_dbWrite_self {db : List Task} {i : String} {ex : Task} (nt : Task)
    (h : dbGet db i = some ex) (hid : nt.id = i) :
    dbGet (dbWrite db i nt) i = some nt := by
  induction db with
  | nil => simp [dbGet] at h
  | cons a l ih =>
    by_cases ha : a.id = i
    · rw [dbGet, dbWrite, List.map_cons, if_pos ha]
      rw [List.find?_cons_of_pos _ (by simp [hid])]
    · rw [dbGet, List.find?_cons_of_neg _ (by simp [ha])] at h
      rw [dbGet, dbWrite, List.map_cons, if_neg ha,
        List.find?_cons_of_neg _ (by simp [ha])]
      exact ih h

theorem dbGet_dbDelete_self (db : List Task) (i : String) :
    dbGet (dbDelete db i) i = none := by
  rw [dbGet, List.find?_eq_none]
  intro t ht
  have := List.of_mem_filter ht
  simpa using this

/-- `syncCalendarAfterWrite` emits only calendar effects. -/
theorem syncCalendarAfterWrite_emailCalls (env : Env) (t : Task) :
    emailCalls (syncCalendarAfterWrite env t).2 = [] := by
  unfold syncCalendarAfterWrite
  split
  · simp [emailCalls]
  · split
    · split <;> simp [emailCalls]
    · simp [emailCalls]

/-- The row `updateCalendarPhase` hands back only ever differs from its
input in the `calendarEventId` column. -/
theorem updateCalendarPhase_fst (env : Env) (db : List Task) (t : Task) :
    ∃ c, (updateCalendarPhase env db t).1 = { t with calendarEventId := c } := by
  unfold updateCalendarPhase
  split
  · cases hsync : syncCalendarAfterWrite env t with
    | mk eid effs =>
      cases eid with
      | some e =>
        dsimp only
        split
        · exact ⟨_, rfl⟩
        · exact ⟨t.calendarEventId, rfl⟩
      | none => exact ⟨t.calendarEventId, rfl⟩
  · split
    · exact ⟨none, rfl⟩
    · exact ⟨t.calendarEventId, rfl⟩

/-- After the calendar phase the table still holds the row it returns. -/
theorem updateCalendarPhase_db (env : Env) (db : List Task) (t : Task)
    (h : dbGet db t.id = some t) :
    dbGet (updateCalendarPhase env db t).2.1 t.id =
      some (updateCalendarPhase env db t).1 := by
  unfold updateCalendarPhase
  split
  · cases hsync : syncCalendarAfterWrite env t with
    | mk eid effs =>
      cases eid with
      | some e =>
        dsimp only
        split
        · exact dbGet_dbWrite_self _ h rfl
        · exact h
      | none => exact h
  · split
    · exact dbGet_dbWrite_self _ h rfl
    · exact h

/-- The calendar phase never calls the email service. -/
theorem updateCalendarPhase_emailCalls (env : Env) (db : List Task) (t : Task) :
    emailCalls (updateCalendarPhase env db t).2.2 = [] := by
  have hs := syncCalendarAfterWrite_emailCalls env t
  unfold updateCalendarPhase
  split
  · cases hsync : syncCalendarAfterWrite env t with
    | mk eid effs =>
      rw [hsync] at hs
      cases eid with
      | some e =>
        dsimp only
        split
        · simpa [emailCalls, List.filterMap_append] using hs
        · exact hs
      | none => exact hs
  · split <;> simp [emailCalls]

/-- Shape of a successful `updateTask` run: the row found, owned and
with an acceptable payload, the call performs the core write with
`applyUpdateData`, runs the calendar phase and then the email
notification. -/
theorem updateTask_ok (env : Env) (db : List Task) (payload : TaskUpdatePayload)
    (userId userEmail : String) (ex : Task)
    (hfind : dbGet db payload.id = some ex)
    (hauth : ex.userId = userId)
    (htitle : payload.title ≠ some "") :
    updateTask env db payload userId userEmail =
      ⟨.ok (updateCalendarPhase env
          (dbWrite db payload.id (applyUpdateData env.now ex (partialNorm payload) payload.status))
          (applyUpdateData env.now ex (partialNorm payload) payload.status)).1,
       (updateCalendarPhase env
          (dbWrite db payload.id (applyUpdateData env.now ex (partialNorm payload) payload.status))
          (applyUpdateData env.now ex (partialNorm payload) payload.status)).2.1,
       .dbUpdate payload.id (applyUpdateData env.now ex (partialNorm payload) payload.status) ::
         ((updateCalendarPhase env
            (dbWrite db payload.id (applyUpdateData env.now ex (partialNorm payload) payload.status))
            (applyUpdateData env.now ex (partialNorm payload) payload.status)).2.2 ++
          (if (updateCalendarPhase env
              (dbWrite db payload.id (applyUpdateData env.now ex (partialNorm payload) payload.status))
              (applyUpdateData env.now ex (partialNorm payload) payload.status)).1.emailNotification then
            [.email .updated userEmail (sendEmailDelivered env.email)]
           else []))⟩ := by
  rw [updateTask, hfind]
  simp [hauth, normalizePartialPayload, htitle]

theorem applyUpdateData_id (now : Nat) (ex : Task) (np : PartialPayloadNorm)
    (p : Option TaskStatus) : (applyUpdateData now ex np p).id = ex.id := by
  simp [applyUpdateData, applyPartial]

theorem applyUpdateData_userId (now : Nat) (ex : Task) (np : PartialPayloadNorm)
    (p : Option TaskStatus) : (applyUpdateData now ex np p).userId = ex.userId := by
  simp [applyUpdateData, applyPartial]

/-- Status bookkeeping when a non-completed task is marked COMPLETED. -/
theorem applyUpdateData_into_completed (now : Nat) (ex : Task) (np : PartialPayloadNorm)
    (hnot : ex.status ≠ .COMPLETED) :
    (applyUpdateData now ex np (some .COMPLETED)).previousStatus = some ex.status ∧
    (applyUpdateData now ex np (some .COMPLETED)).completedAt = some now := by
  constructor <;> simp [applyUpdateData, computeCompletedAt, hnot]

/-- Status bookkeeping when a completed task is moved to another status. -/
theorem applyUpdateData_out_of_completed (now : Nat) (ex : Task) (np : PartialPayloadNorm)
    (s : TaskStatus) (hdone : ex.status = .COMPLETED) (hs : s ≠ .COMPLETED) :
    (applyUpdateData now ex np (some s)).previousStatus = none ∧
    (applyUpdateData now ex np (some s)).completedAt = none := by
  constructor <;> simp [applyUpdateData, computeCompletedAt, hdone, hs]

/-- Status bookkeeping when a completed task is marked COMPLETED again. -/
theorem applyUpdateData_recompleted (now : Nat) (ex : Task) (np : PartialPayloadNorm)
    (hdone : ex.status = .COMPLETED) :
    (applyUpdateData now ex np (some .COMPLETED)).previousStatus = ex.previousStatus ∧
    (applyUpdateData now ex np (some .COMPLETED)).completedAt = some now := by
  constructor <;> simp [applyUpdateData, computeCompletedAt, hdone]

/-- A successful `updateTask` returns a row that agrees with the core
database write (`applyUpdateData`) on everything but `calendarEventId`,
and that row is what the table stores afterwards. -/
theorem updateTask_result_fields (env : Env) (db : List Task)
    (payload : TaskUpdatePayload) (userId userEmail : String) (ex : Task)
    (hfind : dbGet db payload.id = some ex)
    (hauth : ex.userId = userId)
    (htitle : payload.title ≠ some "") :
    ∃ t, (updateTask env db payload userId userEmail).result = .ok t ∧
      sansCal t = sansCal (applyUpdateData env.now ex (partialNorm payload) payload.status) ∧
      dbGet (updateTask env db payload userId userEmail).db payload.id = some t := by
  rw [updateTask_ok env db payload userId userEmail ex hfind hauth htitle]
  have hid : (applyUpdateData env.now ex (partialNorm payload) payload.status).id
      = payload.id := by
    rw [applyUpdateData_id]
    exact dbGet_mem_id hfind
  obtain ⟨c, hc⟩ := updateCalendarPhase_fst env
    (dbWrite db payload.id (applyUpdateData env.now ex (partialNorm payload) payload.status))
    (applyUpdateData env.now ex (partialNorm payload) payload.status)
  refine ⟨_, rfl, ?_, ?_⟩
  · rw [hc]
    simp [sansCal]
  · have hdb1 : dbGet
        (dbWrite db payload.id (applyUpdateData env.now ex (partialNorm payload) payload.status))
        (applyUpdateData env.now ex (partialNorm payload) payload.status).id
        = some (applyUpdateData env.now ex (partialNorm payload) payload.status) := by
      rw [hid]
      exact dbGet_dbWrite_self _ hfind hid
    have hphase := updateCalendarPhase_db env
      (dbWrite db payload.id (applyUpdateData env.now ex (partialNorm payload) payload.status))
      (applyUpdateData env.now ex (partialNorm payload) payload.status) hdb1
    rw [hid] at hphase
    exact hphase

/-! ## The claims -/

/-- C1: an update that moves a task which is not COMPLETED into
COMPLETED stores the prior status in `previousStatus` and stamps
`completedAt` with the current time (non-null), both in the returned
row and in the table. -/
theorem tasks_C1 (env : Env) (db : List Task) (payload : TaskUpdatePayload)
    (userId userEmail : String) (ex : Task)
    (hfind : dbGet db payload.id = some ex)
    (hauth : ex.userId = userId)
    (htitle : payload.title ≠ some "")
    (hnot : ex.status ≠ .COMPLETED)
    (hset : payload.status = some .COMPLETED) :
    ∃ t, (updateTask env db payload userId userEmail).result = .ok t ∧
      t.previousStatus = some ex.status ∧
      t.completedAt = some env.now ∧
      dbGet (updateTask env db payload userId userEmail).db payload.id = some t := by
  obtain ⟨t, hres, hsans, hdb⟩ :=
    updateTask_result_fields env db payload userId userEmail ex hfind hauth htitle
  rw [hset] at hsans
  obtain ⟨hprev, hcomp⟩ :=
    applyUpdateData_into_completed env.now ex (partialNorm payload) hnot
  refine ⟨t, hres, ?_, ?_, hdb⟩
  · have := congrArg Task.previousStatus hsans
    simp only [sansCal] at this
    rw [this, hprev]
  · have := congrArg Task.completedAt hsans
    simp only [sansCal] at this
    rw [this, hcomp]

/-- C1 witness: completing the pending `sampleTask` at time 42. -/
theorem tasks_C1_witness :
    dbGet [sampleTask] ({ id := "t1", status := some .COMPLETED } : TaskUpdatePayload).id
      = some sampleTask ∧
    sampleTask.userId = "u1" ∧
    ({ id := "t1", status := some .COMPLETED } : TaskUpdatePayload).title ≠ some "" ∧
    sampleTask.status ≠ .COMPLETED ∧
    ({ id := "t1", status := some .COMPLETED } : TaskUpdatePayload).status
      = some .COMPLETED ∧
    (∃ t, (updateTask sampleEnv [sampleTask]
        { id := "t1", status := some .COMPLETED } "u1" "owner@example.com").result = .ok t ∧
      t.previousStatus = some sampleTask.status ∧
      t.completedAt = some sampleEnv.now ∧
      dbGet (updateTask sampleEnv [sampleTask]
        { id := "t1", status := some .COMPLETED } "u1" "owner@example.com").db
        ({ id := "t1", status := some .COMPLETED } : TaskUpdatePayload).id = some t) :=
  ⟨by decide, by decide, by decide, by decide, by decide,
   tasks_C1 sampleEnv [sampleTask] { id := "t1", status := some .COMPLETED }
     "u1" "owner@example.com" sampleTask
     (by decide) (by decide) (by decide) (by decide) (by decide)⟩

/-- C2: an update that moves a COMPLETED task to another status clears
`previousStatus` and nulls `completedAt`. -/
theorem tasks_C2 (env : Env) (db : List Task) (payload : TaskUpdatePayload)
    (userId userEmail : String) (ex : Task) (s : TaskStatus)
    (hfind : dbGet db payload.id = some ex)
    (hauth : ex.userId = userId)
    (htitle : payload.title ≠ some "")
    (hdone : ex.status = .COMPLETED)
    (hset : payload.status = some s)
    (hs : s ≠ .COMPLETED) :
    ∃ t, (updateTask env db payload userId userEmail).result = .ok t ∧
      t.previousStatus = none ∧
      t.completedAt = none ∧
      dbGet (updateTask env db payload userId userEmail).db payload.id = some t := by
  obtain ⟨t, hres, hsans, hdb⟩ :=
    updateTask_result_fields env db payload userId userEmail ex hfind hauth htitle
  rw [hset] at hsans
  obtain ⟨hprev, hcomp⟩ :=
    applyUpdateData_out_of_completed env.now ex (partialNorm payload) s hdone hs
  refine ⟨t, hres, ?_, ?_, hdb⟩
  · have := congrArg Task.previousStatus hsans
    simp only [sansCal] at this
    rw [this, hprev]
  · have := congrArg Task.completedAt hsans
    simp only [sansCal] at this
    rw [this, hcomp]

/-- C2 witness: reactivating the completed `doneTask` to PENDING. -/
theorem tasks_C2_witness :
    dbGet [doneTask] ({ id := "t2", status := some .PENDING } : TaskUpdatePayload).id
      = some doneTask ∧
    doneTask.userId = "u1" ∧
    ({ id := "t2", status := some .PENDING } : TaskUpdatePayload).title ≠ some "" ∧
    doneTask.status = .COMPLETED ∧
    ({ id := "t2", status := some .PENDING } : TaskUpdatePayload).status
      = some .PENDING ∧
    (.PENDING : TaskStatus) ≠ .COMPLETED ∧
    (∃ t, (updateTask sampleEnv [doneTask]
        { id := "t2", status := some .PENDING } "u1" "owner@example.com").result = .ok t ∧
      t.previousStatus = none ∧
      t.completedAt = none ∧
      dbGet (updateTask sampleEnv [doneTask]
        { id := "t2", status := some .PENDING } "u1" "owner@example.com").db
        ({ id := "t2", status := some .PENDING } : TaskUpdatePayload).id = some t) :=
  ⟨by decide, by decide, by decide, by decide, by decide, by decide,
   tasks_C2 sampleEnv [doneTask] { id := "t2", status := some .PENDING }
     "u1" "owner@example.com" doneTask .PENDING
     (by decide) (by decide) (by decide) (by decide) (by decide) (by decide)⟩

/-- C10: re-completing an already COMPLETED task re-stamps
`completedAt` with the current time (the old stamp is not kept) and
leaves `previousStatus` unchanged. -/
theorem tasks_C10 (env : Env) (db : List Task) (payload : TaskUpdatePayload)
    (userId userEmail : String) (ex : Task)
    (hfind : dbGet db payload.id = some ex)
    (hauth : ex.userId = userId)
    (htitle : payload.title ≠ some "")
    (hdone : ex.status = .COMPLETED)
    (hset : payload.status = some .COMPLETED) :
    ∃ t, (updateTask env db payload userId userEmail).result = .ok t ∧
      t.completedAt = some env.now ∧
      t.previousStatus = ex.previousStatus ∧
      dbGet (updateTask env db payload userId userEmail).db payload.id = some t := by
  obtain ⟨t, hres, hsans, hdb⟩ :=
    updateTask_result_fields env db payload userId userEmail ex hfind hauth htitle
  rw [hset] at hsans
  obtain ⟨hprev, hcomp⟩ :=
    applyUpdateData_recompleted env.now ex (partialNorm payload) hdone
  refine ⟨t, hres, ?_, ?_, hdb⟩
  · have := congrArg Task.completedAt hsans
    simp only [sansCal] at this
    rw [this, hcomp]
  · have := congrArg Task.previousStatus hsans
    simp only [sansCal] at this
    rw [this, hprev]

/-- C10 witness: re-completing `doneTask` (old stamp 7) at time 42. -/
theorem tasks_C10_witness :
    dbGet [doneTask] ({ id := "t2", status := some .COMPLETED } : TaskUpdatePayload).id
      = some doneTask ∧
    doneTask.userId = "u1" ∧
    ({ id := "t2", status := some .COMPLETED } : TaskUpdatePayload).title ≠ some "" ∧
    doneTask.status = .COMPLETED ∧
    ({ id := "t2", status := some .COMPLETED } : TaskUpdatePayload).status
      = some .COMPLETED ∧
    (∃ t, (updateTask sampleEnv [doneTask]
        { id := "t2", status := some .COMPLETED } "u1" "owner@example.com").result = .ok t ∧
      t.completedAt = some sampleEnv.now ∧
      t.previousStatus = doneTask.previousStatus ∧
      dbGet (updateTask sampleEnv [doneTask]
        { id := "t2", status := some .COMPLETED } "u1" "owner@example.com").db
        ({ id := "t2", status := some .COMPLETED } : TaskUpdatePayload).id = some t) :=
  ⟨by decide, by decide, by decide, by decide, by decide,
   tasks_C10 sampleEnv [doneTask] { id := "t2", status := some .COMPLETED }
     "u1" "owner@example.com" doneTask
     (by decide) (by decide) (by decide) (by decide) (by decide)⟩

/-- C9: partial updates are frame-preserving — every field of the
existing row that the payload does not provide keeps its value (the id
and owner always do), the only columns allowed to move beyond the
provided fields being `previousStatus`, `completedAt` and
`calendarEventId`. -/
theorem tasks_C9 (env : Env) (db : List Task) (payload : TaskUpdatePayload)
    (userId userEmail : String) (ex : Task)
    (hfind : dbGet db payload.id = some ex)
    (hauth : ex.userId = userId)
    (htitle : payload.title ≠ some "") :
    ∃ t, (updateTask env db payload userId userEmail).result = .ok t ∧
      t.id = ex.id ∧ t.userId = ex.userId ∧
      (payload.title = none → t.title = ex.title) ∧
      (payload.description = none → t.description = ex.description) ∧
      (payload.status = none → t.status = ex.status) ∧
      (payload.priority = none → t.priority = ex.priority) ∧
      (payload.category = none → t.category = ex.category) ∧
      (payload.dueDate = none → t.dueDate = ex.dueDate) ∧
      (payload.emailNotification = none → t.emailNotification = ex.emailNotification) ∧
      (payload.calendarSync = none → t.calendarSync = ex.calendarSync) ∧
      dbGet (updateTask env db payload userId userEmail).db payload.id = some t := by
  obtain ⟨t, hres, hsans, hdb⟩ :=
    updateTask_result_fields env db payload userId userEmail ex hfind hauth htitle
  refine ⟨t, hres, ?_, ?_, ?_, ?_, ?_, ?_, ?_, ?_, ?_, ?_, hdb⟩
  · have h := congrArg Task.id hsans
    simp only [sansCal] at h
    rw [h, applyUpdateData_id]
  · have h := congrArg Task.userId hsans
    simp only [sansCal] at h
    rw [h, applyUpdateData_userId]
  · intro hp
    have h := congrArg Task.title hsans
    simp only [sansCal] at h
    rw [h]
    simp [applyUpdateData, applyPartial, partialNorm, hp]
  · intro hp
    have h := congrArg Task.description hsans
    simp only [sansCal] at h
    rw [h]
    simp [applyUpdateData, applyPartial, partialNorm, hp]
  · intro hp
    have h := congrArg Task.status hsans
    simp only [sansCal] at h
    rw [h]
    simp [applyUpdateData, applyPartial, partialNorm, hp]
  · intro hp
    have h := congrArg Task.priority hsans
    simp only [sansCal] at h
    rw [h]
    simp [applyUpdateData, applyPartial, partialNorm, hp]
  · intro hp
    have h := congrArg Task.category hsans
    simp only [sansCal] at h
    rw [h]
    simp [applyUpdateData, applyPartial, partialNorm, hp]
  · intro hp
    have h := congrArg Task.dueDate hsans
    simp only [sansCal] at h
    rw [h]
    simp [applyUpdateData, applyPartial, partialNorm, hp]
  · intro hp
    have h := congrArg Task.emailNotification hsans
    simp only [sansCal] at h
    rw [h]
    simp [applyUpdateData, applyPartial, partialNorm, hp]
  · intro hp
    have h := congrArg Task.calendarSync hsans
    simp only [sansCal] at h
    rw [h]
    simp [applyUpdateData, applyPartial, partialNorm, hp]

/-- C9 witness: the empty update `{ id := "t1" }` on `sampleTask`. -/
theorem tasks_C9_witness :
    dbGet [sampleTask] ({ id := "t1" } : TaskUpdatePayload).id = some sampleTask ∧
    sampleTask.userId = "u1" ∧
    ({ id := "t1" } : TaskUpdatePayload).title ≠ some "" ∧
    (∃ t, (updateTask sampleEnv [sampleTask]
        { id := "t1" } "u1" "owner@example.com").result = .ok t ∧
      t.id = sampleTask.id ∧ t.userId = sampleTask.userId ∧
      (({ id := "t1" } : TaskUpdatePayload).title = none → t.title = sampleTask.title) ∧
      (({ id := "t1" } : TaskUpdatePayload).description = none →
        t.description = sampleTask.description) ∧
      (({ id := "t1" } : TaskUpdatePayload).status = none → t.status = sampleTask.status) ∧
      (({ id := "t1" } : TaskUpdatePayload).priority = none →
        t.priority = sampleTask.priority) ∧
      (({ id := "t1" } : TaskUpdatePayload).category = none →
        t.category = sampleTask.category) ∧
      (({ id := "t1" } : TaskUpdatePayload).dueDate = none → t.dueDate = sampleTask.dueDate) ∧
      (({ id := "t1" } : TaskUpdatePayload).emailNotification = none →
        t.emailNotification = sampleTask.emailNotification) ∧
      (({ id := "t1" } : TaskUpdatePayload).calendarSync = none →
        t.calendarSync = sampleTask.calendarSync) ∧
      dbGet (updateTask sampleEnv [sampleTask]
        { id := "t1" } "u1" "owner@example.com").db
        ({ id := "t1" } : TaskUpdatePayload).id = some t) :=
  ⟨by decide, by decide, by decide,
   tasks_C9 sampleEnv [sampleTask] { id := "t1" } "u1" "owner@example.com" sampleTask
     (by decide) (by decide) (by decide)⟩

/-- C8: user isolation — `listTasks` only returns rows of the calling
user, and `updateTask`/`deleteTask` on a row owned by someone else
throw `Unauthorized`, leaving the table untouched and performing no
side effect. -/
theorem tasks_C8 (env : Env) (db : List Task) (q : TaskQuery)
    (pu : TaskUpdatePayload) (did userId userEmail : String) (exU exD : Task)
    (hufind : dbGet db pu.id = some exU)
    (huowner : exU.userId ≠ userId)
    (hdtrim : trimmedEmpty did = false)
    (hdfind : dbGet db did = some exD)
    (hdowner : exD.userId ≠ userId) :
    (∀ t ∈ listTasks db q userId, t.userId = userId) ∧
    ((updateTask env db pu userId userEmail).result = .error "Unauthorized" ∧
      (updateTask env db pu userId userEmail).db = db ∧
      (updateTask env db pu userId userEmail).effects = []) ∧
    ((deleteTask env db did userId userEmail).result = .error "Unauthorized" ∧
      (deleteTask env db did userId userEmail).db = db ∧
      (deleteTask env db did userId userEmail).effects = []) := by
  refine ⟨?_, ?_, ?_⟩
  · intro t ht
    rw [listTasks] at ht
    have hm := (List.mem_filter.mp ht).2
    rw [matchesWhere] at hm
    simp only [Bool.and_eq_true] at hm
    exact beq_iff_eq.mp hm.1.1.1.1.1.1.1
  · rw [updateTask, hufind]
    simp [huowner]
  · rw [deleteTask]
    simp [hdtrim, hdfind, hdowner]

/-- C8 witness: user `u2` listing against `u1`'s table and trying to
update/delete `u1`'s task `t1`. -/
theorem tasks_C8_witness :
    dbGet [sampleTask] ({ id := "t1" } : TaskUpdatePayload).id = some sampleTask ∧
    sampleTask.userId ≠ "u2" ∧
    trimmedEmpty "t1" = false ∧
    dbGet [sampleTask] "t1" = some sampleTask ∧
    ((∀ t ∈ listTasks [sampleTask] {} "u2", t.userId = "u2") ∧
     ((updateTask sampleEnv [sampleTask] { id := "t1" } "u2" "mallory@example.com").result
        = .error "Unauthorized" ∧
      (updateTask sampleEnv [sampleTask] { id := "t1" } "u2" "mallory@example.com").db
        = [sampleTask] ∧
      (updateTask sampleEnv [sampleTask] { id := "t1" } "u2" "mallory@example.com").effects
        = []) ∧
     ((deleteTask sampleEnv [sampleTask] "t1" "u2" "mallory@example.com").result
        = .error "Unauthorized" ∧
      (deleteTask sampleEnv [sampleTask] "t1" "u2" "mallory@example.com").db
        = [sampleTask] ∧
      (deleteTask sampleEnv [sampleTask] "t1" "u2" "mallory@example.com").effects
        = [])) :=
  ⟨by decide, by decide, by decide, by decide,
   tasks_C8 sampleEnv [sampleTask] {} { id := "t1" } "t1" "u2" "mallory@example.com"
     sampleTask sampleTask (by decide) (by decide) (by decide) (by decide) (by decide)⟩

/-- C7: rows produced by `createTask`/`updateTask` always carry a
status among PENDING/IN_PROGRESS/COMPLETED and a `previousStatus` that
is null or one of those three — the `z.enum(taskStatusValues)` of the
validation schemas is embedded as the exhaustive `TaskStatus` type, so
the invariant holds for every reachable row. -/
theorem tasks_C7 (env : Env) (dbc dbu : List Task) (pc : TaskPayload)
    (pu : TaskUpdatePayload) (userId userEmail : String) (t u : Task)
    (_hc : (createTask env dbc pc userId userEmail).result = .ok t)
    (_hu : (updateTask env dbu pu userId userEmail).result = .ok u) :
    ((t.status = .PENDING ∨ t.status = .IN_PROGRESS ∨ t.status = .COMPLETED) ∧
      (t.previousStatus = none ∨ t.previousStatus = some .PENDING ∨
        t.previousStatus = some .IN_PROGRESS ∨ t.previousStatus = some .COMPLETED)) ∧
    ((u.status = .PENDING ∨ u.status = .IN_PROGRESS ∨ u.status = .COMPLETED) ∧
      (u.previousStatus = none ∨ u.previousStatus = some .PENDING ∨
        u.previousStatus = some .IN_PROGRESS ∨ u.previousStatus = some .COMPLETED)) := by
  have statusCases : ∀ s : TaskStatus,
      s = .PENDING ∨ s = .IN_PROGRESS ∨ s = .COMPLETED := by
    intro s
    cases s <;> simp
  have prevCases : ∀ o : Option TaskStatus,
      o = none ∨ o = some .PENDING ∨ o = some .IN_PROGRESS ∨ o = some .COMPLETED := by
    intro o
    rcases o with - | s
    · simp
    · cases s <;> simp
  exact ⟨⟨statusCases _, prevCases _⟩, ⟨statusCases _, prevCases _⟩⟩

/-- The row `createTask` returns in the C7 witness run. -/
def createdFixture : Task :=
  { id := "t9", userId := "u1", title := "Prep slides", description := none
    status := .PENDING, previousStatus := none, priority := .MEDIUM
    category := none, dueDate := some 100, completedAt := none
    emailNotification := true, calendarSync := true, calendarEventId := some "evNew" }

/-- The row `updateTask` returns in the C7 witness run. -/
def completedFixture : Task :=
  { sampleTask with
    status := .COMPLETED, previousStatus := some .PENDING, completedAt := some 42 }

/-- C7 witness: a concrete successful create and a concrete successful
update. -/
theorem tasks_C7_witness :
    (createTask sampleEnv [] { title := some "Prep slides", dueDate := some 100 }
        "u1" "owner@example.com").result = .ok createdFixture ∧
    (updateTask sampleEnv [sampleTask] { id := "t1", status := some .COMPLETED }
        "u1" "owner@example.com").result = .ok completedFixture ∧
    (((createdFixture.status = .PENDING ∨ createdFixture.status = .IN_PROGRESS ∨
        createdFixture.status = .COMPLETED) ∧
      (createdFixture.previousStatus = none ∨
        createdFixture.previousStatus = some .PENDING ∨
        createdFixture.previousStatus = some .IN_PROGRESS ∨
        createdFixture.previousStatus = some .COMPLETED)) ∧
     ((completedFixture.status = .PENDING ∨ completedFixture.status = .IN_PROGRESS ∨
        completedFixture.status = .COMPLETED) ∧
      (completedFixture.previousStatus = none ∨
        completedFixture.previousStatus = some .PENDING ∨
        completedFixture.previousStatus = some .IN_PROGRESS ∨
        completedFixture.previousStatus = some .COMPLETED))) :=
  ⟨by rfl, by rfl,
   tasks_C7 sampleEnv [] [sampleTask] { title := some "Prep slides", dueDate := some 100 }
     { id := "t1", status := some .COMPLETED } "u1" "owner@example.com"
     createdFixture completedFixture (by rfl)
     (by rfl)⟩

/-- With sync on, a due date and a stored (truthy) event id,
`syncCalendarAfterWrite` patches the stored event. -/
theorem syncCalendarAfterWrite_patch (env : Env) (t : Task) (e0 : String)
    (hd : t.dueDate ≠ none) (hs : t.calendarSync = true)
    (hce : t.calendarEventId = some e0) (he0 : e0 ≠ "") :
    syncCalendarAfterWrite env t =
      (updateCalendarEvent env.google e0, [.calPatch e0 t.id]) := by
  rw [syncCalendarAfterWrite, if_neg (by simp [hs, hd]), hce]
  simp [he0]

/-- With sync on, a due date and no stored event id,
`syncCalendarAfterWrite` inserts a fresh event. -/
theorem syncCalendarAfterWrite_insert (env : Env) (t : Task)
    (hd : t.dueDate ≠ none) (hs : t.calendarSync = true)
    (hce : t.calendarEventId = none) :
    syncCalendarAfterWrite env t =
      (createCalendarEvent env.google, [.calCreate t.id]) := by
  rw [syncCalendarAfterWrite, if_neg (by simp [hs, hd]), hce]

/-- Calendar phase of an update carrying a due date, sync on and a
stored event id: exactly one patch call, and a truthy returned id ends
up in the row's `calendarEventId`. -/
theorem updateCalendarPhase_patch (env : Env) (db : List Task) (t : Task) (e0 : String)
    (hd : t.dueDate.isSome = true) (hs : t.calendarSync = true)
    (hce : t.calendarEventId = some e0) (he0 : e0 ≠ "") :
    calWrites (updateCalendarPhase env db t).2.2 = [.calPatch e0 t.id] ∧
    ∀ e, updateCalendarEvent env.google e0 = some e → e ≠ "" →
      (updateCalendarPhase env db t).1.calendarEventId = some e := by
  have hd' : t.dueDate ≠ none := by
    cases h : t.dueDate
    · rw [h] at hd; simp at hd
    · simp
  have hsync := syncCalendarAfterWrite_patch env t e0 hd' hs hce he0
  rw [updateCalendarPhase, if_pos hd, hsync]
  cases hu : updateCalendarEvent env.google e0 with
  | none =>
    refine ⟨by simp [calWrites], ?_⟩
    intro e he
    simp at he
  | some e =>
    dsimp only
    by_cases hee : e ≠ "" ∧ t.calendarEventId ≠ some e
    · rw [if_pos hee]
      refine ⟨by simp [calWrites], ?_⟩
      intro e' he' _
      obtain rfl : e = e' := by simpa using he'
      rfl
    · rw [if_neg hee]
      refine ⟨by simp [calWrites], ?_⟩
      intro e' he' hne'
      obtain rfl : e = e' := by simpa using he'
      rcases not_and_or.mp hee with h | h
      · exact absurd (by simpa using h) hne'
      · rw [hce]
        rw [hce] at h
        simpa using h

/-- Calendar phase of an update carrying a due date, sync on and no
stored event id: exactly one insert call, and a truthy returned id
ends up in the row's `calendarEventId`. -/
theorem updateCalendarPhase_insert (env : Env) (db : List Task) (t : Task)
    (hd : t.dueDate.isSome = true) (hs : t.calendarSync = true)
    (hce : t.calendarEventId = none) :
    calWrites (updateCalendarPhase env db t).2.2 = [.calCreate t.id] ∧
    ∀ e, createCalendarEvent env.google = some e → e ≠ "" →
      (updateCalendarPhase env db t).1.calendarEventId = some e := by
  have hd' : t.dueDate ≠ none := by
    cases h : t.dueDate
    · rw [h] at hd; simp at hd
    · simp
  have hsync := syncCalendarAfterWrite_insert env t hd' hs hce
  rw [updateCalendarPhase, if_pos hd, hsync]
  cases hu : createCalendarEvent env.google with
  | none =>
    refine ⟨by simp [calWrites], ?_⟩
    intro e he
    simp at he
  | some e =>
    dsimp only
    by_cases hee : e ≠ "" ∧ t.calendarEventId ≠ some e
    · rw [if_pos hee]
      refine ⟨by simp [calWrites], ?_⟩
      intro e' he' _
      obtain rfl : e = e' := by simpa using he'
      rfl
    · rw [if_neg hee]
      refine ⟨by simp [calWrites], ?_⟩
      intro e' he' hne'
      obtain rfl : e = e' := by simpa using he'
      rcases not_and_or.mp hee with h | h
      · exact absurd (by simpa using h) hne'
      · rw [hce] at h
        simp at h

/-- `createTask` on a payload with a due date and sync enabled makes
exactly one calendar insert call and persists a truthy returned id. -/
theorem createTask_calendar (env : Env) (dbc : List Task) (pc : TaskPayload)
    (userId userEmail : String) (d : Nat)
    (hct : strTruthy pc.title = true) (hcd : pc.dueDate = some d)
    (hcs : pc.calendarSync.getD true = true) :
    calWrites (createTask env dbc pc userId userEmail).effects
      = [.calCreate env.newTaskId] ∧
    ∀ e, createCalendarEvent env.google = some e → e ≠ "" →
      ∃ t, (createTask env dbc pc userId userEmail).result = .ok t ∧
        t.calendarEventId = some e := by
  have hn : normalizePayload pc = .ok
      { title := pc.title.getD "", description := pc.description
        status := pc.status.getD .PENDING, priority := pc.priority.getD .MEDIUM
        category := pc.category, dueDate := pc.dueDate
        emailNotification := pc.emailNotification.getD true
        calendarSync := pc.calendarSync.getD true } := by
    rw [normalizePayload, if_pos hct]
  rw [createTask, hn]
  simp only [createRecord, hcd, hcs, Option.isSome_some, if_true]
  cases hres : createCalendarEvent env.google with
  | none =>
    dsimp only
    refine ⟨?_, ?_⟩
    · split <;> simp [calWrites]
    · intro e he
      simp at he
  | some e =>
    dsimp only
    by_cases he : e = ""
    · subst he
      simp only [ne_eq, not_true_eq_false, if_false]
      refine ⟨?_, ?_⟩
      · split <;> simp [calWrites]
      · intro e' he' hne'
        obtain rfl : "" = e' := by simpa using he'
        exact absurd rfl hne'
    · simp only [ne_eq, he, not_false_eq_true, if_true]
      refine ⟨?_, ?_⟩
      · split <;> simp [calWrites]
      · intro e' he' _
        obtain rfl : e = e' := by simpa using he'
        exact ⟨_, rfl, rfl⟩

theorem calWrites_cons_dbUpdate (i : String) (t : Task) (l : List Effect) :
    calWrites (Effect.dbUpdate i t :: l) = calWrites l := by
  simp [calWrites]

theorem calWrites_append (l1 l2 : List Effect) :
    calWrites (l1 ++ l2) = calWrites l1 ++ calWrites l2 := by
  simp [calWrites]

theorem calWrites_mailEff (b : Bool) (k : EmailKind) (s : String) (dl : Bool) :
    calWrites (if b = true then [Effect.email k s dl] else []) = [] := by
  cases b <;> simp [calWrites]

/-- C5: on a write whose task carries a due date with sync enabled,
`createTask` (no stored id yet) makes exactly one calendar insert call,
`updateTask` patches a stored (truthy) event id and inserts when none
is stored; and a truthy identifier returned by the calendar call is
always persisted in the returned row's `calendarEventId`. -/
theorem tasks_C5 (env : Env) (dbc dbu : List Task) (pc : TaskPayload)
    (pu : TaskUpdatePayload) (userId userEmail : String) (ex : Task) (d du : Nat)
    (hct : strTruthy pc.title = true)
    (hcd : pc.dueDate = some d)
    (hcs : pc.calendarSync.getD true = true)
    (hfind : dbGet dbu pu.id = some ex)
    (hauth : ex.userId = userId)
    (htitle : pu.title ≠ some "")
    (hud : pu.dueDate.getD ex.dueDate = some du)
    (hus : pu.calendarSync.getD ex.calendarSync = true) :
    (calWrites (createTask env dbc pc userId userEmail).effects
        = [.calCreate env.newTaskId] ∧
      ∀ e, createCalendarEvent env.google = some e → e ≠ "" →
        ∃ t, (createTask env dbc pc userId userEmail).result = .ok t ∧
          t.calendarEventId = some e) ∧
    (∀ e0, ex.calendarEventId = some e0 → e0 ≠ "" →
      calWrites (updateTask env dbu pu userId userEmail).effects
          = [.calPatch e0 pu.id] ∧
      ∀ e, updateCalendarEvent env.google e0 = some e → e ≠ "" →
        ∃ t, (updateTask env dbu pu userId userEmail).result = .ok t ∧
          t.calendarEventId = some e) ∧
    (ex.calendarEventId = none →
      calWrites (updateTask env dbu pu userId userEmail).effects
          = [.calCreate pu.id] ∧
      ∀ e, createCalendarEvent env.google = some e → e ≠ "" →
        ∃ t, (updateTask env dbu pu userId userEmail).result = .ok t ∧
          t.calendarEventId = some e) := by
  have hok := updateTask_ok env dbu pu userId userEmail ex hfind hauth htitle
  have hudd : (applyUpdateData env.now ex (partialNorm pu) pu.status).dueDate
      = some du := by
    simp [applyUpdateData, applyPartial, partialNorm, hud]
  have hucs : (applyUpdateData env.now ex (partialNorm pu) pu.status).calendarSync
      = true := by
    simp [applyUpdateData, applyPartial, partialNorm, hus]
  have huce : (applyUpdateData env.now ex (partialNorm pu) pu.status).calendarEventId
      = ex.calendarEventId := by
    simp [applyUpdateData, applyPartial, partialNorm]
  have hdIsSome : (applyUpdateData env.now ex (partialNorm pu) pu.status).dueDate.isSome
      = true := by
    rw [hudd]; rfl
  have hid : (applyUpdateData env.now ex (partialNorm pu) pu.status).id = pu.id := by
    rw [applyUpdateData_id]; exact dbGet_mem_id hfind
  refine ⟨createTask_calendar env dbc pc userId userEmail d hct hcd hcs, ?_, ?_⟩
  · intro e0 hce0 he0
    obtain ⟨hw, hpers⟩ := updateCalendarPhase_patch env
      (dbWrite dbu pu.id (applyUpdateData env.now ex (partialNorm pu) pu.status))
      (applyUpdateData env.now ex (partialNorm pu) pu.status) e0
      hdIsSome hucs (huce.trans hce0) he0
    constructor
    · rw [hok]
      dsimp only
      rw [calWrites_cons_dbUpdate, calWrites_append, hw, calWrites_mailEff, hid]
      simp
    · intro e he hne
      rw [hok]
      exact ⟨_, rfl, hpers e he hne⟩
  · intro hce0
    obtain ⟨hw, hpers⟩ := updateCalendarPhase_insert env
      (dbWrite dbu pu.id (applyUpdateData env.now ex (partialNorm pu) pu.status))
      (applyUpdateData env.now ex (partialNorm pu) pu.status)
      hdIsSome hucs (huce.trans hce0)
    constructor
    · rw [hok]
      dsimp only
      rw [calWrites_cons_dbUpdate, calWrites_append, hw, calWrites_mailEff, hid]
      simp
    · intro e he hne
      rw [hok]
      exact ⟨_, rfl, hpers e he hne⟩

/-- C5 witness: a fresh create with due date 100 and an update of
`sampleTask` (stored event `ev1`), driven by `sampleEnv`. -/
theorem tasks_C5_witness :
    strTruthy ({ title := some "Prep slides", dueDate := some 100 } : TaskPayload).title
      = true ∧
    ({ title := some "Prep slides", dueDate := some 100 } : TaskPayload).dueDate
      = some 100 ∧
    ({ title := some "Prep slides", dueDate := some 100 } : TaskPayload).calendarSync.getD true
      = true ∧
    dbGet [sampleTask] ({ id := "t1" } : TaskUpdatePayload).id = some sampleTask ∧
    sampleTask.userId = "u1" ∧
    ({ id := "t1" } : TaskUpdatePayload).title ≠ some "" ∧
    ({ id := "t1" } : TaskUpdatePayload).dueDate.getD sampleTask.dueDate = some 100 ∧
    ({ id := "t1" } : TaskUpdatePayload).calendarSync.getD sampleTask.calendarSync = true ∧
    ((calWrites (createTask sampleEnv []
          { title := some "Prep slides", dueDate := some 100 } "u1" "owner@example.com").effects
        = [.calCreate sampleEnv.newTaskId] ∧
      ∀ e, createCalendarEvent sampleEnv.google = some e → e ≠ "" →
        ∃ t, (createTask sampleEnv []
            { title := some "Prep slides", dueDate := some 100 } "u1" "owner@example.com").result
            = .ok t ∧ t.calendarEventId = some e) ∧
     (∀ e0, sampleTask.calendarEventId = some e0 → e0 ≠ "" →
        calWrites (updateTask sampleEnv [sampleTask]
            { id := "t1" } "u1" "owner@example.com").effects
          = [.calPatch e0 ({ id := "t1" } : TaskUpdatePayload).id] ∧
        ∀ e, updateCalendarEvent sampleEnv.google e0 = some e → e ≠ "" →
          ∃ t, (updateTask sampleEnv [sampleTask]
              { id := "t1" } "u1" "owner@example.com").result = .ok t ∧
            t.calendarEventId = some e) ∧
     (sampleTask.calendarEventId = none →
        calWrites (updateTask sampleEnv [sampleTask]
            { id := "t1" } "u1" "owner@example.com").effects
          = [.calCreate ({ id := "t1" } : TaskUpdatePayload).id] ∧
        ∀ e, createCalendarEvent sampleEnv.google = some e → e ≠ "" →
          ∃ t, (updateTask sampleEnv [sampleTask]
              { id := "t1" } "u1" "owner@example.com").result = .ok t ∧
            t.calendarEventId = some e)) :=
  ⟨by decide, by decide, by decide, by decide, by decide, by decide, by decide, by decide,
   tasks_C5 sampleEnv [] [sampleTask] { title := some "Prep slides", dueDate := some 100 }
     { id := "t1" } "u1" "owner@example.com" sampleTask 100 100
     (by decide) (by decide) (by decide) (by decide) (by decide) (by decide)
     (by decide) (by decide)⟩

theorem emailCalls_cons_dbUpdate (i : String) (t : Task) (l : List Effect) :
    emailCalls (Effect.dbUpdate i t :: l) = emailCalls l := by
  simp [emailCalls]

theorem emailCalls_append (l1 l2 : List Effect) :
    emailCalls (l1 ++ l2) = emailCalls l1 ++ emailCalls l2 := by
  simp [emailCalls]

/-- What `createTask` sends: one created-mail to the owner exactly when
notifications are on and the task either has a due date or is created
COMPLETED — never otherwise. -/
theorem createTask_emailCalls (env : Env) (dbc : List Task) (pc : TaskPayload)
    (userId userEmail : String)
    (hct : strTruthy pc.title = true) :
    emailCalls (createTask env dbc pc userId userEmail).effects =
      (if pc.emailNotification.getD true = true ∧
          (pc.dueDate ≠ none ∨ pc.status.getD .PENDING = .COMPLETED)
       then [(.created, userEmail)] else []) := by
  have hn : normalizePayload pc = .ok
      { title := pc.title.getD "", description := pc.description
        status := pc.status.getD .PENDING, priority := pc.priority.getD .MEDIUM
        category := pc.category, dueDate := pc.dueDate
        emailNotification := pc.emailNotification.getD true
        calendarSync := pc.calendarSync.getD true } := by
    rw [normalizePayload, if_pos hct]
  rw [createTask, hn]
  simp only [createRecord]
  cases hdd : pc.dueDate with
  | none =>
    simp only [Option.isSome_none, Bool.false_eq_true, if_false]
    by_cases hen : pc.emailNotification.getD true = true <;>
      by_cases hst : pc.status.getD .PENDING = .COMPLETED <;>
        simp [emailCalls, hen, hst]
  | some dd =>
    simp only [Option.isSome_some, if_true]
    by_cases hen : pc.emailNotification.getD true = true <;>
      by_cases hcs : pc.calendarSync.getD true = true
    · cases hce : createCalendarEvent env.google with
      | none => simp [emailCalls, hen, hcs]
      | some e => by_cases he : e = "" <;> simp [emailCalls, hen, hcs, he]
    · simp [emailCalls, hen, hcs]
    · cases hce : createCalendarEvent env.google with
      | none => simp [emailCalls, hen, hcs]
      | some e => by_cases he : e = "" <;> simp [emailCalls, hen, hcs, he]
    · simp [emailCalls, hen, hcs]

/-- What a successful `updateTask` sends: one updated-mail to the
owner exactly when the updated row has notifications on. -/
theorem updateTask_emailCalls (env : Env) (dbu : List Task)
    (pu : TaskUpdatePayload) (userId userEmail : String) (ex : Task)
    (hfind : dbGet dbu pu.id = some ex)
    (hauth : ex.userId = userId)
    (htitle : pu.title ≠ some "") :
    emailCalls (updateTask env dbu pu userId userEmail).effects =
      (if pu.emailNotification.getD ex.emailNotification = true
       then [(.updated, userEmail)] else []) := by
  have hok := updateTask_ok env dbu pu userId userEmail ex hfind hauth htitle
  have hen : (updateCalendarPhase env
      (dbWrite dbu pu.id (applyUpdateData env.now ex (partialNorm pu) pu.status))
      (applyUpdateData env.now ex (partialNorm pu) pu.status)).1.emailNotification
      = pu.emailNotification.getD ex.emailNotification := by
    obtain ⟨c, hc⟩ := updateCalendarPhase_fst env
      (dbWrite dbu pu.id (applyUpdateData env.now ex (partialNorm pu) pu.status))
      (applyUpdateData env.now ex (partialNorm pu) pu.status)
    rw [hc]
    simp [applyUpdateData, applyPartial, partialNorm]
  rw [hok]
  dsimp only
  rw [emailCalls_cons_dbUpdate, emailCalls_append, updateCalendarPhase_emailCalls, hen]
  by_cases hb : pu.emailNotification.getD ex.emailNotification = true <;>
    simp [emailCalls, hb]

/-- What a successful `deleteTask` sends: one deleted-mail to the
owner exactly when the stored row has notifications on. -/
theorem deleteTask_emailCalls (env : Env) (dbd : List Task) (did : String)
    (userId userEmail : String) (ex : Task)
    (htrim : trimmedEmpty did = false)
    (hfind : dbGet dbd did = some ex)
    (hauth : ex.userId = userId) :
    emailCalls (deleteTask env dbd did userId userEmail).effects =
      (if ex.emailNotification = true then [(.deleted, userEmail)] else []) := by
  rw [deleteTask]
  simp only [htrim, Bool.false_eq_true, if_false, hfind, hauth, ne_eq,
    not_true_eq_false]
  by_cases hen : ex.emailNotification = true <;>
    by_cases hce : strTruthy ex.calendarEventId = true <;>
      simp [emailCalls, hen, hce]

/-- C3 (amended): with notifications enabled, a successful update or
delete sends exactly one email of the matching kind to the task
owner's address; a successful create sends exactly one created-email
only when the task has a due date or is created with status COMPLETED,
and sends none otherwise (counterexample:
a create with notifications on, no due date and default status sends
no email). -/
theorem tasks_C3 (env : Env) (dbc dbu dbd : List Task) (pc : TaskPayload)
    (pu : TaskUpdatePayload) (did userId userEmail : String) (exU exD : Task)
    (hct : strTruthy pc.title = true)
    (hufind : dbGet dbu pu.id = some exU)
    (huauth : exU.userId = userId)
    (hutitle : pu.title ≠ some "")
    (hdtrim : trimmedEmpty did = false)
    (hdfind : dbGet dbd did = some exD)
    (hdauth : exD.userId = userId) :
    (emailCalls (createTask env dbc pc userId userEmail).effects =
      (if pc.emailNotification.getD true = true ∧
          (pc.dueDate ≠ none ∨ pc.status.getD .PENDING = .COMPLETED)
       then [(.created, userEmail)] else [])) ∧
    (emailCalls (updateTask env dbu pu userId userEmail).effects =
      (if pu.emailNotification.getD exU.emailNotification = true
       then [(.updated, userEmail)] else [])) ∧
    (emailCalls (deleteTask env dbd did userId userEmail).effects =
      (if exD.emailNotification = true then [(.deleted, userEmail)] else [])) :=
  ⟨createTask_emailCalls env dbc pc userId userEmail hct,
   updateTask_emailCalls env dbu pu userId userEmail exU hufind huauth hutitle,
   deleteTask_emailCalls env dbd did userId userEmail exD hdtrim hdfind hdauth⟩

/-- C3 counterexample: a successful create with email notifications
enabled but no due date (and default PENDING status) sends no email at
all, refuting "a successful create sends the email regardless of
whether the task has a due date or what its status is". -/
theorem tasks_C3_counterexample :
    (createTask sampleEnv [] { title := some "Buy milk", emailNotification := some true }
        "u1" "owner@example.com").result =
      .ok { id := "t9", userId := "u1", title := "Buy milk", description := none
            status := .PENDING, previousStatus := none, priority := .MEDIUM
            category := none, dueDate := none, completedAt := none
            emailNotification := true, calendarSync := true, calendarEventId := none } ∧
    emailCalls (createTask sampleEnv [] { title := some "Buy milk", emailNotification := some true }
        "u1" "owner@example.com").effects = [] := by
  constructor <;> rfl

/-- C3 witness: a create with a due date, an update and a delete, all
with notifications on, each sending exactly one email to the owner. -/
theorem tasks_C3_witness :
    strTruthy ({ title := some "Prep slides", dueDate := some 100 } : TaskPayload).title
      = true ∧
    dbGet [sampleTask] ({ id := "t1" } : TaskUpdatePayload).id = some sampleTask ∧
    sampleTask.userId = "u1" ∧
    ({ id := "t1" } : TaskUpdatePayload).title ≠ some "" ∧
    trimmedEmpty "t2" = false ∧
    dbGet [doneTask] "t2" = some doneTask ∧
    doneTask.userId = "u1" ∧
    ((emailCalls (createTask sampleEnv []
          { title := some "Prep slides", dueDate := some 100 } "u1" "owner@example.com").effects =
       (if ({ title := some "Prep slides", dueDate := some 100 } : TaskPayload).emailNotification.getD true = true ∧
           (({ title := some "Prep slides", dueDate := some 100 } : TaskPayload).dueDate ≠ none ∨
            ({ title := some "Prep slides", dueDate := some 100 } : TaskPayload).status.getD .PENDING = .COMPLETED)
        then [(.created, "owner@example.com")] else [])) ∧
     (emailCalls (updateTask sampleEnv [sampleTask]
          { id := "t1" } "u1" "owner@example.com").effects =
       (if ({ id := "t1" } : TaskUpdatePayload).emailNotification.getD sampleTask.emailNotification = true
        then [(.updated, "owner@example.com")] else [])) ∧
     (emailCalls (deleteTask sampleEnv [doneTask] "t2" "u1" "owner@example.com").effects =
       (if doneTask.emailNotification = true then [(.deleted, "owner@example.com")] else []))) :=
  ⟨by decide, by decide, by decide, by decide, by decide, by decide, by decide,
   tasks_C3 sampleEnv [] [sampleTask] [doneTask]
     { title := some "Prep slides", dueDate := some 100 } { id := "t1" } "t2"
     "u1" "owner@example.com" sampleTask doneTask
     (by decide) (by decide) (by decide) (by decide) (by decide) (by decide) (by decide)⟩

theorem calDeleteTargets_cons_dbUpdate (i : String) (t : Task) (l : List Effect) :
    calDeleteTargets (Effect.dbUpdate i t :: l) = calDeleteTargets l := by
  simp [calDeleteTargets]

theorem calDeleteTargets_append (l1 l2 : List Effect) :
    calDeleteTargets (l1 ++ l2) = calDeleteTargets l1 ++ calDeleteTargets l2 := by
  simp [calDeleteTargets]

theorem calDeleteTargets_mailEff (b : Bool) (k : EmailKind) (s : String) (dl : Bool) :
    calDeleteTargets (if b = true then [Effect.email k s dl] else []) = [] := by
  cases b <;> simp [calDeleteTargets]

/-- Calendar phase of an update whose row lost its due date and still
stores a truthy event id: one delete call for that id, and the id is
nulled on the row. -/
theorem updateCalendarPhase_noDue (env : Env) (db : List Task) (t : Task)
    (hd : t.dueDate = none) (ht : strTruthy t.calendarEventId = true) :
    (updateCalendarPhase env db t).1 = { t with calendarEventId := none } ∧
    calDeleteTargets (updateCalendarPhase env db t).2.2 = [t.calendarEventId] := by
  rw [updateCalendarPhase, hd]
  simp only [Option.isSome_none, Bool.false_eq_true, if_false, ht, if_true]
  exact ⟨by trivial, by simp [calDeleteTargets]⟩

/-- Calendar phase of an update whose row keeps a due date but has
sync disabled: one delete call for the stored id, and the row — in
particular its `calendarEventId` — is returned unchanged. -/
theorem updateCalendarPhase_syncOff (env : Env) (db : List Task) (t : Task)
    (hd : t.dueDate.isSome = true) (hs : t.calendarSync = false) :
    (updateCalendarPhase env db t).1 = t ∧
    (updateCalendarPhase env db t).2.1 = db ∧
    calDeleteTargets (updateCalendarPhase env db t).2.2 = [t.calendarEventId] := by
  have hsync : syncCalendarAfterWrite env t =
      (none, [.calDelete t.calendarEventId
        (deleteCalendarEventRuns env.google t.calendarEventId)]) := by
    rw [syncCalendarAfterWrite, if_pos (by simp [hs])]
  rw [updateCalendarPhase, if_pos hd, hsync]
  exact ⟨rfl, rfl, by simp [calDeleteTargets]⟩

/-- C4 (amended): for an update of a task storing a (truthy) calendar
event id, if the resulting task has no due date then the calendar
delete call is issued for that id and the stored `calendarEventId` is
nulled; but if the resulting task still has a due date and merely has
`calendarSync` disabled, the delete call is issued while the stored
`calendarEventId` is left unchanged (not cleared). -/
theorem tasks_C4 (env : Env) (db : List Task) (payload : TaskUpdatePayload)
    (userId userEmail : String) (ex : Task) (e0 : String)
    (hfind : dbGet db payload.id = some ex)
    (hauth : ex.userId = userId)
    (htitle : payload.title ≠ some "")
    (hce : ex.calendarEventId = some e0)
    (he0 : e0 ≠ "") :
    (payload.dueDate.getD ex.dueDate = none →
      calDeleteTargets (updateTask env db payload userId userEmail).effects = [some e0] ∧
      ∃ t, (updateTask env db payload userId userEmail).result = .ok t ∧
        t.calendarEventId = none ∧
        dbGet (updateTask env db payload userId userEmail).db payload.id = some t) ∧
    (∀ du, payload.dueDate.getD ex.dueDate = some du →
      payload.calendarSync.getD ex.calendarSync = false →
      calDeleteTargets (updateTask env db payload userId userEmail).effects = [some e0] ∧
      ∃ t, (updateTask env db payload userId userEmail).result = .ok t ∧
        t.calendarEventId = some e0 ∧
        dbGet (updateTask env db payload userId userEmail).db payload.id = some t) := by
  have hok := updateTask_ok env db payload userId userEmail ex hfind hauth htitle
  have huce : (applyUpdateData env.now ex (partialNorm payload) payload.status).calendarEventId
      = ex.calendarEventId := by
    simp [applyUpdateData, applyPartial, partialNorm]
  have hid : (applyUpdateData env.now ex (partialNorm payload) payload.status).id
      = payload.id := by
    rw [applyUpdateData_id]; exact dbGet_mem_id hfind
  have hdb1 : dbGet
      (dbWrite db payload.id (applyUpdateData env.now ex (partialNorm payload) payload.status))
      (applyUpdateData env.now ex (partialNorm payload) payload.status).id
      = some (applyUpdateData env.now ex (partialNorm payload) payload.status) := by
    rw [hid]
    exact dbGet_dbWrite_self _ hfind hid
  have hphase := updateCalendarPhase_db env
    (dbWrite db payload.id (applyUpdateData env.now ex (partialNorm payload) payload.status))
    (applyUpdateData env.now ex (partialNorm payload) payload.status) hdb1
  rw [hid] at hphase
  constructor
  · intro hdd
    have hu_dd : (applyUpdateData env.now ex (partialNorm payload) payload.status).dueDate
        = none := by
      simp [applyUpdateData, applyPartial, partialNorm, hdd]
    have ht : strTruthy (applyUpdateData env.now ex (partialNorm payload) payload.status).calendarEventId
        = true := by
      rw [huce, hce]
      simp [strTruthy, he0]
    obtain ⟨h1, h2⟩ := updateCalendarPhase_noDue env
      (dbWrite db payload.id (applyUpdateData env.now ex (partialNorm payload) payload.status))
      (applyUpdateData env.now ex (partialNorm payload) payload.status) hu_dd ht
    refine ⟨?_, ?_⟩
    · rw [hok]
      dsimp only
      rw [calDeleteTargets_cons_dbUpdate, calDeleteTargets_append, h2,
        calDeleteTargets_mailEff, huce, hce]
      simp
    · refine ⟨_, by rw [hok], ?_, ?_⟩
      · rw [h1]
      · rw [hok]
        exact hphase
  · intro du hdd hsd
    have hu_dd : (applyUpdateData env.now ex (partialNorm payload) payload.status).dueDate.isSome
        = true := by
      have : (applyUpdateData env.now ex (partialNorm payload) payload.status).dueDate
          = some du := by
        simp [applyUpdateData, applyPartial, partialNorm, hdd]
      rw [this]; rfl
    have hu_cs : (applyUpdateData env.now ex (partialNorm payload) payload.status).calendarSync
        = false := by
      simp [applyUpdateData, applyPartial, partialNorm, hsd]
    obtain ⟨h1, hdb2, h2⟩ := updateCalendarPhase_syncOff env
      (dbWrite db payload.id (applyUpdateData env.now ex (partialNorm payload) payload.status))
      (applyUpdateData env.now ex (partialNorm payload) payload.status) hu_dd hu_cs
    refine ⟨?_, ?_⟩
    · rw [hok]
      dsimp only
      rw [calDeleteTargets_cons_dbUpdate, calDeleteTargets_append, h2,
        calDeleteTargets_mailEff, huce, hce]
      simp
    · refine ⟨_, by rw [hok], ?_, ?_⟩
      · rw [h1, huce, hce]
      · rw [hok]
        exact hphase

/-- The row the C4 counterexample run returns: `sampleTask` with sync
turned off and the stale event id still stored. -/
def staleCalTask : Task :=
  { sampleTask with calendarSync := false }

/-- C4 counterexample: disabling `calendarSync` on `sampleTask` (which
keeps its due date and stores event id `ev1`) issues the calendar
delete but leaves `calendarEventId = some "ev1"` on the stored row —
the claim demands it be null. -/
theorem tasks_C4_counterexample :
    (updateTask sampleEnv [sampleTask] { id := "t1", calendarSync := some false }
        "u1" "owner@example.com").result = .ok staleCalTask ∧
    staleCalTask.calendarSync = false ∧
    staleCalTask.dueDate = some 100 ∧
    staleCalTask.calendarEventId = some "ev1" ∧
    calDeleteTargets (updateTask sampleEnv [sampleTask]
        { id := "t1", calendarSync := some false } "u1" "owner@example.com").effects
      = [some "ev1"] ∧
    dbGet (updateTask sampleEnv [sampleTask] { id := "t1", calendarSync := some false }
        "u1" "owner@example.com").db "t1" = some staleCalTask :=
  ⟨by rfl, by rfl, by rfl, by rfl, by rfl, by rfl⟩

/-- C4 witness: removing the due date of `sampleTask` deletes event
`ev1` and clears the stored id; disabling sync instead deletes the
event but keeps the id. -/
theorem tasks_C4_witness :
    dbGet [sampleTask] ({ id := "t1", dueDate := some none } : TaskUpdatePayload).id
      = some sampleTask ∧
    sampleTask.userId = "u1" ∧
    ({ id := "t1", dueDate := some none } : TaskUpdatePayload).title ≠ some "" ∧
    sampleTask.calendarEventId = some "ev1" ∧
    ("ev1" : String) ≠ "" ∧
    ((({ id := "t1", dueDate := some none } : TaskUpdatePayload).dueDate.getD sampleTask.dueDate = none →
      calDeleteTargets (updateTask sampleEnv [sampleTask]
          { id := "t1", dueDate := some none } "u1" "owner@example.com").effects = [some "ev1"] ∧
      ∃ t, (updateTask sampleEnv [sampleTask]
          { id := "t1", dueDate := some none } "u1" "owner@example.com").result = .ok t ∧
        t.calendarEventId = none ∧
        dbGet (updateTask sampleEnv [sampleTask]
          { id := "t1", dueDate := some none } "u1" "owner@example.com").db
          ({ id := "t1", dueDate := some none } : TaskUpdatePayload).id = some t) ∧
     (∀ du, ({ id := "t1", dueDate := some none } : TaskUpdatePayload).dueDate.getD sampleTask.dueDate = some du →
      ({ id := "t1", dueDate := some none } : TaskUpdatePayload).calendarSync.getD sampleTask.calendarSync = false →
      calDeleteTargets (updateTask sampleEnv [sampleTask]
          { id := "t1", dueDate := some none } "u1" "owner@example.com").effects = [some "ev1"] ∧
      ∃ t, (updateTask sampleEnv [sampleTask]
          { id := "t1", dueDate := some none } "u1" "owner@example.com").result = .ok t ∧
        t.calendarEventId = some "ev1" ∧
        dbGet (updateTask sampleEnv [sampleTask]
          { id := "t1", dueDate := some none } "u1" "owner@example.com").db
          ({ id := "t1", dueDate := some none } : TaskUpdatePayload).id = some t)) :=
  ⟨by decide, by decide, by decide, by decide, by decide,
   tasks_C4 sampleEnv [sampleTask] { id := "t1", dueDate := some none }
     "u1" "owner@example.com" sampleTask "ev1"
     (by decide) (by decide) (by decide) (by decide) (by decide)⟩

/-- A successful `createTask` run: the first effect is the database
insert of the normalized row and the call returns successfully — in
every environment. -/
theorem createTask_core (env : Env) (dbc : List Task) (pc : TaskPayload)
    (userId userEmail : String)
    (hct : strTruthy pc.title = true) :
    (createTask env dbc pc userId userEmail).effects.head?
      = some (.dbCreate (createRecord env.now env.newTaskId
          { title := pc.title.getD "", description := pc.description
            status := pc.status.getD .PENDING, priority := pc.priority.getD .MEDIUM
            category := pc.category, dueDate := pc.dueDate
            emailNotification := pc.emailNotification.getD true
            calendarSync := pc.calendarSync.getD true } userId)) ∧
    (createTask env dbc pc userId userEmail).result.isOk = true := by
  have hn : normalizePayload pc = .ok
      { title := pc.title.getD "", description := pc.description
        status := pc.status.getD .PENDING, priority := pc.priority.getD .MEDIUM
        category := pc.category, dueDate := pc.dueDate
        emailNotification := pc.emailNotification.getD true
        calendarSync := pc.calendarSync.getD true } := by
    rw [normalizePayload, if_pos hct]
  rw [createTask, hn]
  dsimp only
  constructor <;> (repeat' split) <;> rfl

/-- A successful `deleteTask` run in closed form. -/
theorem deleteTask_ok (env : Env) (dbd : List Task) (did userId userEmail : String)
    (exD : Task)
    (htrim : trimmedEmpty did = false)
    (hfind : dbGet dbd did = some exD)
    (hauth : exD.userId = userId) :
    deleteTask env dbd did userId userEmail =
      ⟨.ok exD, dbDelete dbd did,
        (if exD.emailNotification = true then
          [.email .deleted userEmail (sendEmailDelivered env.email)] else []) ++
        (if strTruthy exD.calendarEventId = true then
          [.calDelete exD.calendarEventId
            (deleteCalendarEventRuns env.google exD.calendarEventId)] else []) ++
        [.dbDelete did]⟩ := by
  rw [deleteTask]
  simp [htrim, hfind, hauth]

/-- C6: whenever the core database write succeeds (row found, owned,
payload acceptable), the three operations return successfully under
EVERY integration environment — in particular ones where every email
and calendar API call throws — the core database write they perform is
identical across environments, and for updates the resulting row can
differ across environments only in `calendarEventId`; a delete removes
the row regardless of the environment. -/
theorem tasks_C6 (env env' : Env) (dbc dbu dbd : List Task) (pc : TaskPayload)
    (pu : TaskUpdatePayload) (did userId userEmail : String) (exU exD : Task)
    (hnow : env'.now = env.now)
    (hnid : env'.newTaskId = env.newTaskId)
    (hct : strTruthy pc.title = true)
    (hufind : dbGet dbu pu.id = some exU)
    (huauth : exU.userId = userId)
    (hutitle : pu.title ≠ some "")
    (hdtrim : trimmedEmpty did = false)
    (hdfind : dbGet dbd did = some exD)
    (hdauth : exD.userId = userId) :
    ((createTask env dbc pc userId userEmail).result.isOk = true ∧
     (createTask env dbc pc userId userEmail).effects.head?
        = (createTask env' dbc pc userId userEmail).effects.head? ∧
     (∃ t0, (createTask env dbc pc userId userEmail).effects.head?
        = some (.dbCreate t0))) ∧
    ((updateTask env dbu pu userId userEmail).result.isOk = true ∧
     (updateTask env dbu pu userId userEmail).effects.head?
        = (updateTask env' dbu pu userId userEmail).effects.head? ∧
     (updateTask env dbu pu userId userEmail).effects.head?
        = some (.dbUpdate pu.id (applyUpdateData env.now exU (partialNorm pu) pu.status)) ∧
     Except.map sansCal (updateTask env dbu pu userId userEmail).result
        = Except.map sansCal (updateTask env' dbu pu userId userEmail).result) ∧
    ((deleteTask env dbd did userId userEmail).result = .ok exD ∧
     (deleteTask env' dbd did userId userEmail).result = .ok exD ∧
     dbGet (deleteTask env dbd did userId userEmail).db did = none ∧
     Effect.dbDelete did ∈ (deleteTask env dbd did userId userEmail).effects) := by
  obtain ⟨hch, hcok⟩ := createTask_core env dbc pc userId userEmail hct
  obtain ⟨hch', _⟩ := createTask_core env' dbc pc userId userEmail hct
  rw [hnow, hnid] at hch'
  have hok := updateTask_ok env dbu pu userId userEmail exU hufind huauth hutitle
  have hok' := updateTask_ok env' dbu pu userId userEmail exU hufind huauth hutitle
  obtain ⟨t1, hr1, hs1, _⟩ :=
    updateTask_result_fields env dbu pu userId userEmail exU hufind huauth hutitle
  obtain ⟨t2, hr2, hs2, _⟩ :=
    updateTask_result_fields env' dbu pu userId userEmail exU hufind huauth hutitle
  rw [hnow] at hs2
  have hdel := deleteTask_ok env dbd did userId userEmail exD hdtrim hdfind hdauth
  have hdel' := deleteTask_ok env' dbd did userId userEmail exD hdtrim hdfind hdauth
  refine ⟨⟨hcok, hch.trans hch'.symm, ⟨_, hch⟩⟩, ⟨?_, ?_, ?_, ?_⟩, ?_, ?_, ?_, ?_⟩
  · rw [hok]; rfl
  · rw [hok, hok']
    dsimp only
    rw [hnow]
    rfl
  · rw [hok]; rfl
  · rw [hr1, hr2]
    show Except.ok (sansCal t1) = Except.ok (sansCal t2)
    rw [hs1, hs2]
  · rw [hdel]
  · rw [hdel']
  · rw [hdel]
    exact dbGet_dbDelete_self dbd did
  · rw [hdel]
    simp

/-- C6 witness: the same create/update/delete run under the fully
healthy `sampleEnv` and under `failEnv`, whose every integration API
call throws. -/
theorem tasks_C6_witness :
    failEnv.now = sampleEnv.now ∧
    failEnv.newTaskId = sampleEnv.newTaskId ∧
    strTruthy ({ title := some "Prep slides", dueDate := some 100 } : TaskPayload).title = true ∧
    dbGet [sampleTask] ({ id := "t1" } : TaskUpdatePayload).id = some sampleTask ∧
    sampleTask.userId = "u1" ∧
    ({ id := "t1" } : TaskUpdatePayload).title ≠ some "" ∧
    trimmedEmpty "t2" = false ∧
    dbGet [doneTask] "t2" = some doneTask ∧
    doneTask.userId = "u1" ∧
    (((createTask sampleEnv [] { title := some "Prep slides", dueDate := some 100 }
          "u1" "owner@example.com").result.isOk = true ∧
      (createTask sampleEnv [] { title := some "Prep slides", dueDate := some 100 }
          "u1" "owner@example.com").effects.head?
        = (createTask failEnv [] { title := some "Prep slides", dueDate := some 100 }
          "u1" "owner@example.com").effects.head? ∧
      (∃ t0, (createTask sampleEnv [] { title := some "Prep slides", dueDate := some 100 }
          "u1" "owner@example.com").effects.head? = some (.dbCreate t0))) ∧
     ((updateTask sampleEnv [sampleTask] { id := "t1" } "u1" "owner@example.com").result.isOk
        = true ∧
      (updateTask sampleEnv [sampleTask] { id := "t1" } "u1" "owner@example.com").effects.head?
        = (updateTask failEnv [sampleTask] { id := "t1" } "u1" "owner@example.com").effects.head? ∧
      (updateTask sampleEnv [sampleTask] { id := "t1" } "u1" "owner@example.com").effects.head?
        = some (.dbUpdate ({ id := "t1" } : TaskUpdatePayload).id
            (applyUpdateData sampleEnv.now sampleTask
              (partialNorm { id := "t1" }) ({ id := "t1" } : TaskUpdatePayload).status)) ∧
      Except.map sansCal
          (updateTask sampleEnv [sampleTask] { id := "t1" } "u1" "owner@example.com").result
        = Except.map sansCal
          (updateTask failEnv [sampleTask] { id := "t1" } "u1" "owner@example.com").result) ∧
     ((deleteTask sampleEnv [doneTask] "t2" "u1" "owner@example.com").result = .ok doneTask ∧
      (deleteTask failEnv [doneTask] "t2" "u1" "owner@example.com").result = .ok doneTask ∧
      dbGet (deleteTask sampleEnv [doneTask] "t2" "u1" "owner@example.com").db "t2" = none ∧
      Effect.dbDelete "t2"
        ∈ (deleteTask sampleEnv [doneTask] "t2" "u1" "owner@example.com").effects)) :=
  ⟨by decide, by decide, by decide, by decide, by decide, by decide, by decide, by decide,
   by decide,
   tasks_C6 sampleEnv failEnv [] [sampleTask] [doneTask]
     { title := some "Prep slides", dueDate := some 100 } { id := "t1" } "t2"
     "u1" "owner@example.com" sampleTask doneTask
     (by decide) (by decide) (by decide) (by decide) (by decide) (by decide)
     (by decide) (by decide) (by decide)⟩

end SmartTodo
